import Mathlib

/-!
Verification of the tpo-frontend client logic: a shallow embedding of the
string transforms, zod-style validation schemas, API-client response
normalization and session-context state transitions found in the source,
together with theorems checking the specification's claims about them.

JavaScript strings are modelled as lists of characters (`JStr`), JSON
values as an inductive type with JavaScript truthiness, and fallible
operations as `Except`.
-/

/-- JavaScript strings, modelled as lists of characters. -/
abbrev JStr := List Char

/-- Whitespace predicate used by `String.prototype.trim`. -/
def isWS (c : Char) : Bool := c.isWhitespace

/-- `String.prototype.split(sep)` for a one-character separator: splitting
`""` yields `[""]`, and a trailing separator yields a trailing empty token,
as in JavaScript. -/
def splitOnChar (sep : Char) : JStr → List JStr
  | [] => [[]]
  | c :: cs =>
    if c = sep then [] :: splitOnChar sep cs
    else
      match splitOnChar sep cs with
      | [] => [[c]]
      | t :: ts => (c :: t) :: ts

/-- `String.prototype.trim()`: drop whitespace from both ends. -/
def trim (s : JStr) : JStr :=
  ((s.dropWhile isWS).reverse.dropWhile isWS).reverse

/-- `Array.prototype.join(sep)` for a one-character separator. -/
def joinWithChar (sep : Char) : List JStr → JStr
  | [] => []
  | [t] => t
  | t :: ts => t ++ sep :: joinWithChar sep ts

/-- The comma transform used by the Add/Edit placement submit handlers:
`s.split(',').map(s => s.trim()).filter(s => s)`. -/
def splitTrimFilter (s : JStr) : List JStr :=
  ((splitOnChar ',' s).map trim).filter (fun t => t ≠ [])

/-- The newline transform used by the selection submit handlers:
`s.split('\n').map(s => s.trim()).filter(s => s)`. -/
def splitLinesTrimFilter (s : JStr) : List JStr :=
  ((splitOnChar '\n' s).map trim).filter (fun t => t ≠ [])

/-- `Array.prototype.join(',')`. -/
def joinComma (ts : List JStr) : JStr := joinWithChar ',' ts

/-- JSON values of the backend's response bodies. -/
inductive Json where
  | null : Json
  | bool (b : Bool) : Json
  | num (n : Int) : Json
  | str (s : JStr) : Json
  | arr (elems : List Json) : Json
  | obj (fields : List (JStr × Json)) : Json

/-- JavaScript truthiness of a JSON value. -/
def Json.truthy : Json → Bool
  | .null => false
  | .bool b => b
  | .num n => n ≠ 0
  | .str s => s ≠ []
  | .arr _ => true
  | .obj _ => true

/-- `typeof v === 'object'`: true for objects, arrays and `null`. -/
def Json.typeofObject : Json → Bool
  | .null => true
  | .arr _ => true
  | .obj _ => true
  | _ => false

/-- `Array.isArray`. -/
def Json.isArray : Json → Bool
  | .arr _ => true
  | _ => false

/-- Response body of `GET /selections/{placementId}`: both the `selections`
and the `selection` fields may be absent. -/
structure SelectionsResponseBody where
  selections : Option Json
  selection : Option Json

/-- `getSelectionsByPlacementId` (selectionService): return
`response.data.selections` when it is an array; otherwise, when
`response.data.selection` is truthy of object type, wrap it in a
one-element array; otherwise return the empty array. -/
def getSelectionsByPlacementId (b : SelectionsResponseBody) : List Json :=
  match b.selections with
  | some (Json.arr xs) => xs
  | _ =>
    match b.selection with
    | some sel => if sel.truthy && sel.typeofObject then [sel] else []
    | none => []

/-- Response body of `POST /selections/{placementId}`. -/
structure AddSelectionResponseBody where
  selection : Option Json

/-- `addSelection` (selectionService): throw
`"Selection data not returned from API after creation."` when
`response.data.selection` is absent or falsy, else resolve with it. -/
def addSelection (b : AddSelectionResponseBody) : Except String Json :=
  match b.selection with
  | some sel =>
    if sel.truthy then .ok sel
    else .error "Selection data not returned from API after creation."
  | none => .error "Selection data not returned from API after creation."

/-- `"Upcoming" | "Ongoing" | "Completed"` (addPlacementSchema.status). -/
inductive PlacementStatus where
  | upcoming | ongoing | completed

/-- `"On-Campus" | "Off-Campus" | "Pool-Campus"` (addPlacementSchema.driveType). -/
inductive DriveType where
  | onCampus | offCampus | poolCampus

/-- `companySchema`'s value shape: name plus optional description/website. -/
structure Company where
  name : JStr
  description : Option JStr
  website : Option JStr

/-- `AddPlacementFormData`: the validated form values of AddPlacementPage,
with comma-separated fields still as single strings. Dates are opaque. -/
structure AddPlacementFormData where
  title : JStr
  company : Company
  jobDesignation : JStr
  eligibleBranches : JStr
  ctcDetails : JStr
  applicationDeadline : Option Nat
  jobDescription : Option JStr
  selectionProcess : Option JStr
  additionalDetails : Option JStr
  driveType : Option DriveType
  jobLocation : Option JStr
  registrationLink : Option JStr
  status : PlacementStatus

/-- `NewPlacementPayload`: same fields with `eligibleBranches` and
`selectionProcess` transformed into string lists. -/
structure NewPlacementPayload where
  title : JStr
  company : Company
  jobDesignation : JStr
  eligibleBranches : List JStr
  ctcDetails : JStr
  applicationDeadline : Option Nat
  jobDescription : Option JStr
  selectionProcess : List JStr
  additionalDetails : Option JStr
  driveType : Option DriveType
  jobLocation : Option JStr
  registrationLink : Option JStr
  status : PlacementStatus

/-- JavaScript truthiness of an optional string (absent or `""` is falsy). -/
def optStrTruthy : Option JStr → Bool
  | some s => s ≠ []
  | none => false

/-- `AddPlacementPage.onSubmit`: build the payload by splitting
`eligibleBranches` on commas (trim, drop empties) and likewise
`selectionProcess` when truthy, else `[]`. -/
def addPlacementOnSubmit (data : AddPlacementFormData) : NewPlacementPayload :=
  { title := data.title
    company := data.company
    jobDesignation := data.jobDesignation
    eligibleBranches := splitTrimFilter data.eligibleBranches
    ctcDetails := data.ctcDetails
    applicationDeadline := data.applicationDeadline
    jobDescription := data.jobDescription
    selectionProcess :=
      match data.selectionProcess with
      | some s => if s ≠ [] then splitTrimFilter s else []
      | none => []
    additionalDetails := data.additionalDetails
    driveType := data.driveType
    jobLocation := data.jobLocation
    registrationLink := data.registrationLink
    status := data.status }

/-- One row of the selection form's student field array
(`selectedStudentSchema`'s value shape). -/
structure StudentInput where
  _id : Option JStr
  name : JStr
  rollno : JStr
  branch : JStr

/-- The selection form's raw values (Add/Edit selection dialogs):
`nextSteps`/`documentLink`/`additionalNotes` are optional strings. -/
structure SelectionFormValues where
  selectedStudents : List StudentInput
  nextSteps : Option JStr
  documentLink : Option JStr
  additionalNotes : Option JStr

/-- A student as sent in the wire payload; `_id` is kept only if truthy. -/
structure SelectedStudentOut where
  name : JStr
  rollno : JStr
  branch : JStr
  _id : Option JStr

/-- `s.name && s.rollno && s.branch` under JS truthiness. -/
def studentComplete (s : StudentInput) : Bool :=
  !s.name.isEmpty && !s.rollno.isEmpty && !s.branch.isEmpty

/-- `s.name || s.rollno || s.branch` under JS truthiness. -/
def studentAnyField (s : StudentInput) : Bool :=
  !s.name.isEmpty || !s.rollno.isEmpty || !s.branch.isEmpty

/-- `{name: s.name, rollno: s.rollno, branch: s.branch, ...(s._id && {_id: s._id})}`. -/
def projectStudent (s : StudentInput) : SelectedStudentOut :=
  { name := s.name
    rollno := s.rollno
    branch := s.branch
    _id := match s._id with
           | some i => if i.isEmpty then none else some i
           | none => none }

/-- `processStudentData` (PlacementSelections.jsx): keep only fully
populated students; if none is fully valid while some fields were entered,
toast and throw. -/
def processStudentData (students : List StudentInput) :
    Except String (List SelectedStudentOut) :=
  let validStudents := (students.filter studentComplete).map projectStudent
  if validStudents.isEmpty && !students.isEmpty && students.any studentAnyField then
    .error "Invalid student data: Incomplete student entries found."
  else
    .ok validStudents

/-- The wire payload of `POST /selections/{placementId}` (`SelectionData`). -/
structure SelectionData where
  selectedStudents : List SelectedStudentOut
  nextSteps : List JStr
  documentLink : Option JStr
  additionalNotes : List JStr

/-- `data.f ? data.f.split('\n').map(s => s.trim()).filter(s => s) : []`. -/
def linesOrEmpty (o : Option JStr) : List JStr :=
  match o with
  | some s => if s.isEmpty then [] else splitLinesTrimFilter s
  | none => []

/-- `data.documentLink || undefined`. -/
def orUndefined (o : Option JStr) : Option JStr :=
  match o with
  | some s => if s.isEmpty then none else some s
  | none => none

/-- Outcome of a submit handler: blocked client-side with error messages,
an informational no-op, or a network call carrying the payload. -/
inductive SubmitOutcome where
  | blocked (messages : List String)
  | noop (info : String)
  | sent (payload : SelectionData)

/-- `handleAddSubmit` (PlacementSelections.jsx): filter the student rows;
when the filter throws, the catch block ends the submission with the
safeguard toast; a wholly empty draft is a no-op; otherwise the
`addSelection` mutation is issued with the transformed payload. -/
def handleAddSubmit (data : SelectionFormValues) : SubmitOutcome :=
  match processStudentData data.selectedStudents with
  | .error _ =>
    .blocked ["Please ensure all selected students have a name, roll number, and branch."]
  | .ok processedStudents =>
    if processedStudents.isEmpty && !optStrTruthy data.nextSteps &&
        !optStrTruthy data.documentLink && !optStrTruthy data.additionalNotes then
      .noop "Cannot add an empty selection list. Please add students or other details."
    else
      .sent { selectedStudents := processedStudents
              nextSteps := linesOrEmpty data.nextSteps
              documentLink := orUndefined data.documentLink
              additionalNotes := linesOrEmpty data.additionalNotes }

/-- `z.string().url(msg).optional().or(z.literal(''))`: no error when the
field is absent or the empty string; otherwise `msg` unless the string
satisfies the URL predicate. The URL predicate itself belongs to the
validation library and is kept abstract. -/
def optionalUrlFieldErrors (isURL : JStr → Bool) (msg : String) : Option JStr → List String
  | none => []
  | some s => if s.isEmpty then [] else if isURL s then [] else [msg]

/-- Per-student required-field messages of `selectedStudentSchema`. -/
def studentFieldErrors (s : StudentInput) : List String :=
  (if s.name.isEmpty then ["Name is required"] else []) ++
  (if s.rollno.isEmpty then ["Roll number is required"] else []) ++
  (if s.branch.isEmpty then ["Branch is required"] else [])

/-- `selectionSchema` (selectionSchemas.js): at least one student entry,
each entry's three fields required, `documentLink` a URL when non-empty. -/
def selectionSchemaErrors (isURL : JStr → Bool) (f : SelectionFormValues) : List String :=
  (if f.selectedStudents.length < 1 then
    ["At least one student must be selected with complete details."] else []) ++
  (f.selectedStudents.map studentFieldErrors).flatten ++
  optionalUrlFieldErrors isURL "Must be a valid URL" f.documentLink

/-- `companySchema` (addPlacementSchema.ts). -/
def companySchemaErrors (isURL : JStr → Bool) (c : Company) : List String :=
  (if c.name.isEmpty then ["Company name is required"] else []) ++
  optionalUrlFieldErrors isURL "Invalid company website URL" c.website

/-- `addPlacementSchema` (addPlacementSchema.ts): required strings, the
nested company schema, and the optional URL-typed registration link. -/
def addPlacementSchemaErrors (isURL : JStr → Bool) (d : AddPlacementFormData) : List String :=
  (if d.title.isEmpty then ["Placement title is required"] else []) ++
  companySchemaErrors isURL d.company ++
  (if d.jobDesignation.isEmpty then ["Job designation is required"] else []) ++
  (if d.eligibleBranches.isEmpty then
    ["Eligible branches are required (comma-separated). Example: CSE, ECE, ME"] else []) ++
  (if d.ctcDetails.isEmpty then ["CTC details are required"] else []) ++
  optionalUrlFieldErrors isURL "Invalid registration link URL" d.registrationLink

/-- Modelled from the spec: the add-selection dialog component itself is
not in the source tree (only its caller `PlacementSelections.jsx` and its
edit sibling are). Per the spec's form state machine — and exactly as the
edit dialog wires `zodResolver(selectionSchema)` — an invalid draft blocks
submission with the schema's field errors, and only a valid draft reaches
the submit handler. -/
def addSelectionSubmitFlow (isURL : JStr → Bool) (f : SelectionFormValues) : SubmitOutcome :=
  let errs := selectionSchemaErrors isURL f
  if errs.isEmpty then handleAddSubmit f else .blocked errs

/-- `'Alert' | 'Info' | 'Reminder'` (PlacementUpdate.updateType). -/
inductive UpdateType where
  | alert | info | reminder

/-- A `PlacementUpdate` as rendered by the detail page. -/
structure PlacementUpdate where
  _id : JStr
  updateType : UpdateType
  message : JStr
  createdAt : JStr

/-- `Array.prototype.slice()` with no arguments: a copy. -/
def jsSliceCopy (l : List α) : List α := l

/-- `placement.updates.slice().reverse()` (PlacementUpdatesSection and the
detail page): the list rendered to the user, newest first. -/
def displayedUpdates (updates : List PlacementUpdate) : List PlacementUpdate :=
  (jsSliceCopy updates).reverse

/-- The `AuthProvider` context state: the persisted storage slot
(`localStorage 'authToken'`), the in-memory token, the current user and
the loading flag. -/
structure AuthState where
  storedToken : Option JStr
  token : Option JStr
  user : Option Json
  isLoading : Bool

/-- `AuthProvider`'s initial state: token restored from persistence, no
user, loading set. -/
def initialAuthState (persisted : Option JStr) : AuthState :=
  { storedToken := persisted, token := persisted, user := none, isLoading := true }

/-- `loadUser` (AuthContext mount effect): with a token present, resolve
the user from the `getMe` outcome; on failure remove the stored token and
clear token and user; finally clear the loading flag. The catch swallows
the error, so the step is a total function of the outcome. -/
def loadUser (st : AuthState) (getMeResult : Except String Json) : AuthState :=
  match st.token with
  | some _ =>
    match getMeResult with
    | .ok userData => { st with user := some userData, isLoading := false }
    | .error _ =>
      { st with storedToken := none, token := none, user := none, isLoading := false }
  | none => { st with isLoading := false }

theorem splitOnChar_ne_nil (sep : Char) (s : JStr) : splitOnChar sep s ≠ [] := by
  induction s with
  | nil => simp [splitOnChar]
  | cons c cs ih =>
    unfold splitOnChar
    by_cases h : c = sep
    · simp [h]
    · rw [if_neg h]
      cases hs : splitOnChar sep cs with
      | nil => simp
      | cons t ts => simp

theorem not_sep_of_mem_splitOnChar (sep : Char) :
    ∀ (s : JStr), ∀ t ∈ splitOnChar sep s, ∀ c ∈ t, c ≠ sep := by
  intro s
  induction s with
  | nil =>
    intro t ht c hc
    simp [splitOnChar] at ht
    subst ht
    simp at hc
  | cons a as ih =>
    intro t ht c hc
    unfold splitOnChar at ht
    by_cases ha : a = sep
    · rw [if_pos ha] at ht
      rcases List.mem_cons.mp ht with h | h
      · subst h; simp at hc
      · exact ih t h c hc
    · rw [if_neg ha] at ht
      cases hs : splitOnChar sep as with
      | nil => exact absurd hs (splitOnChar_ne_nil sep as)
      | cons t0 ts0 =>
        rw [hs] at ht
        rcases List.mem_cons.mp ht with h | h
        · subst h
          rcases List.mem_cons.mp hc with rfl | hc2
          · exact ha
          · exact ih t0 (hs ▸ List.mem_cons_self t0 ts0) c hc2
        · exact ih t (hs ▸ List.mem_cons_of_mem t0 h) c hc

theorem splitOnChar_eq_single (sep : Char) :
    ∀ (t : JStr), (∀ c ∈ t, c ≠ sep) → splitOnChar sep t = [t] := by
  intro t
  induction t with
  | nil => intro _; rfl
  | cons a as ih =>
    intro h
    have ha : a ≠ sep := h a (List.mem_cons_self a as)
    unfold splitOnChar
    rw [if_neg ha, ih (fun c hc => h c (List.mem_cons_of_mem a hc))]

theorem splitOnChar_append (sep : Char) :
    ∀ (a r t : JStr) (ts : List JStr), (∀ c ∈ a, c ≠ sep) →
      splitOnChar sep r = t :: ts → splitOnChar sep (a ++ r) = (a ++ t) :: ts := by
  intro a
  induction a with
  | nil => intro r t ts _ h; simpa using h
  | cons x xs ih =>
    intro r t ts hfree h
    have hx : x ≠ sep := hfree x (List.mem_cons_self x xs)
    have ih2 := ih r t ts (fun c hc => hfree c (List.mem_cons_of_mem x hc)) h
    show splitOnChar sep (x :: (xs ++ r)) = ((x :: xs) ++ t) :: ts
    unfold splitOnChar
    rw [if_neg hx, ih2]
    rfl

theorem splitOnChar_joinWithChar (sep : Char) :
    ∀ (ts : List JStr), ts ≠ [] → (∀ t ∈ ts, ∀ c ∈ t, c ≠ sep) →
      splitOnChar sep (joinWithChar sep ts) = ts := by
  intro ts
  induction ts with
  | nil => intro h _; exact absurd rfl h
  | cons t rest ih =>
    intro _ hfree
    cases rest with
    | nil =>
      exact splitOnChar_eq_single sep t (hfree t (List.mem_cons_self t []))
    | cons t2 ts2 =>
      have hrest : splitOnChar sep (joinWithChar sep (t2 :: ts2)) = t2 :: ts2 :=
        ih (by simp) (fun u hu c hc => hfree u (List.mem_cons_of_mem t hu) c hc)
      have hsep : splitOnChar sep (sep :: joinWithChar sep (t2 :: ts2)) =
          [] :: t2 :: ts2 := by
        unfold splitOnChar
        rw [if_pos rfl, hrest]
      have happ := splitOnChar_append sep t (sep :: joinWithChar sep (t2 :: ts2)) []
        (t2 :: ts2) (hfree t (List.mem_cons_self t (t2 :: ts2))) hsep
      show splitOnChar sep (t ++ sep :: joinWithChar sep (t2 :: ts2)) = t :: t2 :: ts2
      simpa using happ

theorem dropWhile_head_false (p : α → Bool) :
    ∀ (l : List α) {c : α} {cs : List α}, l.dropWhile p = c :: cs → p c = false := by
  intro l
  induction l with
  | nil => intro c cs h; simp [List.dropWhile] at h
  | cons a as ih =>
    intro c cs h
    by_cases hp : p a
    · rw [List.dropWhile_cons_of_pos hp] at h
      exact ih h
    · rw [List.dropWhile_cons_of_neg hp] at h
      cases h
      simpa using hp

theorem dropWhile_dropWhile (p : α → Bool) (l : List α) :
    (l.dropWhile p).dropWhile p = l.dropWhile p := by
  cases h : l.dropWhile p with
  | nil => rfl
  | cons c cs =>
    have hc := dropWhile_head_false p l h
    rw [List.dropWhile_cons_of_neg (by simp [hc])]

theorem mem_of_mem_dropWhile {p : α → Bool} {c : α} :
    ∀ {l : List α}, c ∈ l.dropWhile p → c ∈ l := by
  intro l
  induction l with
  | nil => intro h; simp [List.dropWhile] at h
  | cons a as ih =>
    intro h
    by_cases hp : p a
    · rw [List.dropWhile_cons_of_pos hp] at h
      exact List.mem_cons_of_mem a (ih h)
    · rwa [List.dropWhile_cons_of_neg hp] at h

theorem mem_of_mem_trim {c : Char} {s : JStr} (h : c ∈ trim s) : c ∈ s := by
  unfold trim at h
  rw [List.mem_reverse] at h
  have h2 := mem_of_mem_dropWhile h
  rw [List.mem_reverse] at h2
  exact mem_of_mem_dropWhile h2

theorem trim_head_not_ws (s : JStr) : List.dropWhile isWS (trim s) = trim s := by
  cases h : trim s with
  | nil => rfl
  | cons c cs =>
    have hrev := List.takeWhile_append_dropWhile (p := isWS)
      (l := (s.dropWhile isWS).reverse)
    have hA : s.dropWhile isWS =
        trim s ++ ((s.dropWhile isWS).reverse.takeWhile isWS).reverse := by
      conv_lhs => rw [← List.reverse_reverse (s.dropWhile isWS), ← hrev]
      rw [List.reverse_append]
      rfl
    rw [h] at hA
    have hc : isWS c = false := dropWhile_head_false isWS s (by rw [hA]; rfl)
    exact List.dropWhile_cons_of_neg (by simp [hc])

theorem trim_idem (s : JStr) : trim (trim s) = trim s := by
  have hA : List.dropWhile isWS (trim s) = trim s := trim_head_not_ws s
  have hB : List.dropWhile isWS (trim s).reverse = (trim s).reverse := by
    unfold trim
    simp only [List.reverse_reverse]
    exact dropWhile_dropWhile isWS _
  show (((trim s).dropWhile isWS).reverse.dropWhile isWS).reverse = trim s
  rw [hA, hB, List.reverse_reverse]

theorem splitTrimFilter_token (s : JStr) {t : JStr} (h : t ∈ splitTrimFilter s) :
    t ≠ [] ∧ trim t = t ∧ ∀ c ∈ t, c ≠ ',' := by
  unfold splitTrimFilter at h
  rw [List.mem_filter] at h
  obtain ⟨hmem, hne⟩ := h
  rw [List.mem_map] at hmem
  obtain ⟨u, hu, rfl⟩ := hmem
  refine ⟨by simpa using hne, trim_idem u, ?_⟩
  intro c hc
  exact not_sep_of_mem_splitOnChar ',' s u hu c (mem_of_mem_trim hc)

theorem mem_ite_singleton {c : Prop} [Decidable c] {m a : String}
    (h : m ∈ (if c then [a] else [])) : m = a := by
  by_cases hc : c
  · rw [if_pos hc] at h
    simpa using h
  · rw [if_neg hc] at h
    simp at h

theorem mem_optionalUrlFieldErrors {isURL : JStr → Bool} {msg m : String}
    {o : Option JStr} (h : m ∈ optionalUrlFieldErrors isURL msg o) : m = msg := by
  unfold optionalUrlFieldErrors at h
  cases o with
  | none => simp at h
  | some s =>
    by_cases h1 : s.isEmpty
    · simp [h1] at h
    · by_cases h2 : isURL s
      · simp [h1, h2] at h
      · simp [h1, h2] at h
        exact h

theorem mem_studentFieldErrors {m : String} {st : StudentInput}
    (h : m ∈ studentFieldErrors st) :
    m = "Name is required" ∨ m = "Roll number is required" ∨ m = "Branch is required" := by
  unfold studentFieldErrors at h
  rcases List.mem_append.mp h with h | h
  · rcases List.mem_append.mp h with h | h
    · exact .inl (mem_ite_singleton h)
    · exact .inr (.inl (mem_ite_singleton h))
  · exact .inr (.inr (mem_ite_singleton h))

theorem studentFieldErrors_ne_nil {s : StudentInput}
    (h : studentComplete s = false) : studentFieldErrors s ≠ [] := by
  unfold studentComplete at h
  unfold studentFieldErrors
  by_cases hn : s.name.isEmpty
  · simp [hn]
  · by_cases hr : s.rollno.isEmpty
    · simp [hn, hr]
    · by_cases hb : s.branch.isEmpty
      · simp [hn, hr, hb]
      · simp [hn, hr, hb] at h

theorem selectionSchemaErrors_ne_nil_of_no_complete (isURL : JStr → Bool)
    (f : SelectionFormValues)
    (h : ∀ s ∈ f.selectedStudents, studentComplete s = false) :
    selectionSchemaErrors isURL f ≠ [] := by
  cases hss : f.selectedStudents with
  | nil => simp [selectionSchemaErrors, hss]
  | cons s ss =>
    intro hcontra
    unfold selectionSchemaErrors at hcontra
    rw [hss] at hcontra
    simp only [List.map_cons, List.flatten_cons, List.append_eq_nil] at hcontra
    exact studentFieldErrors_ne_nil (h s (hss ▸ List.mem_cons_self s ss))
      hcontra.1.2.1

theorem urlErrors_eq {isURL : JStr → Bool} {msg : String} {s : JStr}
    (hne : s ≠ []) (hurl : isURL s = false) :
    optionalUrlFieldErrors isURL msg (some s) = [msg] := by
  have hE : s.isEmpty = false := by
    cases s with
    | nil => exact absurd rfl hne
    | cons a l => rfl
  simp [optionalUrlFieldErrors, hE, hurl]

theorem mem_companySchemaErrors_cases {isURL : JStr → Bool} {c : Company}
    {m : String} (hm : m ∈ companySchemaErrors isURL c) :
    m = "Company name is required" ∨
    m ∈ optionalUrlFieldErrors isURL "Invalid company website URL" c.website := by
  unfold companySchemaErrors at hm
  rcases List.mem_append.mp hm with h | h
  · exact .inl (mem_ite_singleton h)
  · exact .inr h

theorem mem_addPlacementSchemaErrors_cases {isURL : JStr → Bool}
    {d : AddPlacementFormData} {m : String}
    (hm : m ∈ addPlacementSchemaErrors isURL d) :
    m = "Placement title is required" ∨ m = "Company name is required" ∨
    m = "Invalid company website URL" ∨ m = "Job designation is required" ∨
    m = "Eligible branches are required (comma-separated). Example: CSE, ECE, ME" ∨
    m = "CTC details are required" ∨
    m ∈ optionalUrlFieldErrors isURL "Invalid registration link URL"
      d.registrationLink := by
  unfold addPlacementSchemaErrors at hm
  rcases List.mem_append.mp hm with h | h
  · rcases List.mem_append.mp h with h | h
    · rcases List.mem_append.mp h with h | h
      · rcases List.mem_append.mp h with h | h
        · rcases List.mem_append.mp h with h | h
          · exact .inl (mem_ite_singleton h)
          · rcases mem_companySchemaErrors_cases h with h | h
            · exact .inr (.inl h)
            · exact .inr (.inr (.inl (mem_optionalUrlFieldErrors h)))
        · exact .inr (.inr (.inr (.inl (mem_ite_singleton h))))
      · exact .inr (.inr (.inr (.inr (.inl (mem_ite_singleton h)))))
    · exact .inr (.inr (.inr (.inr (.inr (.inl (mem_ite_singleton h))))))
  · exact .inr (.inr (.inr (.inr (.inr (.inr h)))))

theorem mem_selectionSchemaErrors_cases {isURL : JStr → Bool}
    {f : SelectionFormValues} {m : String}
    (hm : m ∈ selectionSchemaErrors isURL f) :
    m = "At least one student must be selected with complete details." ∨
    m = "Name is required" ∨ m = "Roll number is required" ∨
    m = "Branch is required" ∨
    m ∈ optionalUrlFieldErrors isURL "Must be a valid URL" f.documentLink := by
  unfold selectionSchemaErrors at hm
  rcases List.mem_append.mp hm with h | h
  · rcases List.mem_append.mp h with h | h
    · exact .inl (mem_ite_singleton h)
    · rw [List.mem_flatten] at h
      obtain ⟨l, hl, hml⟩ := h
      rw [List.mem_map] at hl
      obtain ⟨st, hst, rfl⟩ := hl
      rcases mem_studentFieldErrors hml with h | h | h
      · exact .inr (.inl h)
      · exact .inr (.inr (.inl h))
      · exact .inr (.inr (.inr (.inl h)))
  · exact .inr (.inr (.inr (.inr h)))

/-- C1: when the `selections` field of the listing response is an array it
is returned as-is; otherwise a present `selection` object is returned as a
one-element list. -/
theorem c1_selection_listing_normalizes (b : SelectionsResponseBody) :
    (∀ xs, b.selections = some (Json.arr xs) → getSelectionsByPlacementId b = xs) ∧
    (∀ fields, (∀ xs, b.selections ≠ some (Json.arr xs)) →
      b.selection = some (Json.obj fields) →
      getSelectionsByPlacementId b = [Json.obj fields]) := by
  constructor
  · intro xs hxs
    simp [getSelectionsByPlacementId, hxs]
  · intro fields hnotarr hsel
    unfold getSelectionsByPlacementId
    cases hsels : b.selections with
    | none => simp [hsel, Json.truthy, Json.typeofObject]
    | some j =>
      cases j with
      | arr xs => exact absurd hsels (hnotarr xs)
      | null => simp [hsel, Json.truthy, Json.typeofObject]
      | bool v => simp [hsel, Json.truthy, Json.typeofObject]
      | num v => simp [hsel, Json.truthy, Json.typeofObject]
      | str v => simp [hsel, Json.truthy, Json.typeofObject]
      | obj v => simp [hsel, Json.truthy, Json.typeofObject]

/-- Witness for C1 at the concrete body `{selection: {}}`. -/
theorem c1_selection_listing_normalizes_witness :
    getSelectionsByPlacementId ⟨none, some (Json.obj [])⟩ = [Json.obj []] :=
  (c1_selection_listing_normalizes ⟨none, some (Json.obj [])⟩).2 []
    (fun _ h => Option.noConfusion h) rfl

/-- C9: when the listing body has no `selections` array and no `selection`
value passing the code's truthy-object check, the result is the empty
list (and, by its type, always a list). -/
theorem c9_selection_listing_defaults_empty (b : SelectionsResponseBody)
    (h1 : ∀ xs, b.selections ≠ some (Json.arr xs))
    (h2 : ∀ j, b.selection = some j → (j.truthy && j.typeofObject) = false) :
    getSelectionsByPlacementId b = [] := by
  unfold getSelectionsByPlacementId
  have hfall : (match b.selection with
      | some sel => if sel.truthy && sel.typeofObject then [sel] else []
      | none => ([] : List Json)) = [] := by
    cases hs : b.selection with
    | none => rfl
    | some j => simp [h2 j hs]
  cases hsels : b.selections with
  | none => simpa using hfall
  | some j =>
    cases j with
    | arr xs => exact absurd hsels (h1 xs)
    | null => simpa using hfall
    | bool v => simpa using hfall
    | num v => simpa using hfall
    | str v => simpa using hfall
    | obj v => simpa using hfall

/-- Witness for C9 at the concrete body `{}`. -/
theorem c9_selection_listing_defaults_empty_witness :
    getSelectionsByPlacementId ⟨none, none⟩ = [] :=
  c9_selection_listing_defaults_empty ⟨none, none⟩
    (fun _ h => Option.noConfusion h) (fun _ h => Option.noConfusion h)

/-- C10 counterexample: in the body `{selection: null}` the `selection`
field is present, yet `addSelection` raises the creation error instead of
resolving, so resolution is not equivalent to presence of the field. -/
theorem c10_counterexample :
    (⟨some Json.null⟩ : AddSelectionResponseBody).selection = some Json.null ∧
    addSelection ⟨some Json.null⟩ =
      Except.error "Selection data not returned from API after creation." :=
  ⟨rfl, rfl⟩

/-- C10 (amended): `addSelection` resolves with the created record exactly
when the `selection` field is present with a truthy value; when the field
is absent or falsy (e.g. `null`) it raises
`"Selection data not returned from API after creation."`. -/
theorem c10_addSelection_requires_truthy_selection (b : AddSelectionResponseBody) :
    (∀ sel, b.selection = some sel → sel.truthy = true → addSelection b = .ok sel) ∧
    (∀ sel, b.selection = some sel → sel.truthy = false →
      addSelection b = .error "Selection data not returned from API after creation.") ∧
    (b.selection = none →
      addSelection b = .error "Selection data not returned from API after creation.") := by
  refine ⟨?_, ?_, ?_⟩
  · intro sel hs ht
    simp [addSelection, hs, ht]
  · intro sel hs ht
    simp [addSelection, hs, ht]
  · intro hs
    simp [addSelection, hs]

/-- Witness for C10's amended theorem at the body `{selection: {}}`. -/
theorem c10_addSelection_requires_truthy_selection_witness :
    addSelection ⟨some (Json.obj [])⟩ = .ok (Json.obj []) :=
  (c10_addSelection_requires_truthy_selection ⟨some (Json.obj [])⟩).1
    (Json.obj []) rfl rfl

/-- C2: the submitted payload's `eligibleBranches` is exactly the
split-on-comma, trimmed, empties-dropped token list of the form input, in
order; in particular `"CSE, ECE, IT"` yields `["CSE","ECE","IT"]`. -/
theorem c2_eligibleBranches_transform (data : AddPlacementFormData) :
    (addPlacementOnSubmit data).eligibleBranches =
      splitTrimFilter data.eligibleBranches ∧
    splitTrimFilter ("CSE, ECE, IT".toList) =
      ["CSE".toList, "ECE".toList, "IT".toList] :=
  ⟨rfl, by decide⟩

/-- C3: the split-trim-filter transform is idempotent through a comma
join: re-splitting the comma-joined token list yields the same tokens. -/
theorem c3_transform_join_idempotent (s : JStr) :
    splitTrimFilter (joinComma (splitTrimFilter s)) = splitTrimFilter s := by
  cases hts : splitTrimFilter s with
  | nil => decide
  | cons t ts =>
    have htok : ∀ u ∈ t :: ts, u ≠ [] ∧ trim u = u ∧ ∀ c ∈ u, c ≠ ',' :=
      fun u hu => splitTrimFilter_token s (hts.symm ▸ hu)
    have hsplit : splitOnChar ',' (joinComma (t :: ts)) = t :: ts :=
      splitOnChar_joinWithChar ',' (t :: ts) (by simp)
        (fun u hu c hc => (htok u hu).2.2 c hc)
    unfold splitTrimFilter
    rw [hsplit]
    have hmap : (t :: ts).map trim = (t :: ts).map id :=
      List.map_congr_left (fun u hu => (htok u hu).2.1)
    rw [hmap, List.map_id]
    exact List.filter_eq_self.mpr (fun u hu => by simpa using (htok u hu).1)

/-- C4 (amended): when no student entry is fully populated, the submission
is always blocked client-side — no `addSelection` call is issued — and the
message `"At least one student must be selected with complete details."`
appears among the validation errors exactly in the case of an empty
student list; incomplete entries are instead rejected with their
per-field required messages. -/
theorem c4_no_complete_student_blocks (isURL : JStr → Bool)
    (f : SelectionFormValues)
    (h : ∀ s ∈ f.selectedStudents, studentComplete s = false) :
    addSelectionSubmitFlow isURL f =
      SubmitOutcome.blocked (selectionSchemaErrors isURL f) ∧
    (f.selectedStudents = [] →
      "At least one student must be selected with complete details." ∈
        selectionSchemaErrors isURL f) := by
  have herrs := selectionSchemaErrors_ne_nil_of_no_complete isURL f h
  constructor
  · have hE : (selectionSchemaErrors isURL f).isEmpty = false := by
      cases hx : selectionSchemaErrors isURL f with
      | nil => exact absurd hx herrs
      | cons a l => rfl
    show (if (selectionSchemaErrors isURL f).isEmpty then handleAddSubmit f
      else SubmitOutcome.blocked (selectionSchemaErrors isURL f)) =
      SubmitOutcome.blocked (selectionSchemaErrors isURL f)
    rw [hE]
    rfl
  · intro h0
    simp [selectionSchemaErrors, h0]

/-- Witness for C4's amended theorem at the empty student list. -/
theorem c4_no_complete_student_blocks_witness :
    addSelectionSubmitFlow (fun _ => false) ⟨[], none, none, none⟩ =
      SubmitOutcome.blocked
        (selectionSchemaErrors (fun _ => false) ⟨[], none, none, none⟩) ∧
    "At least one student must be selected with complete details." ∈
      selectionSchemaErrors (fun _ => false) ⟨[], none, none, none⟩ := by
  have h := c4_no_complete_student_blocks (fun _ => false) ⟨[], none, none, none⟩
    (fun s hs => absurd hs (List.not_mem_nil s))
  exact ⟨h.1, h.2 rfl⟩

/-- C4 counterexample: a single student with an empty roll number is
rejected, but the error carried is `"Roll number is required"`, not the
message the claim names (which only arises for an empty student list). -/
theorem c4_counterexample :
    addSelectionSubmitFlow (fun _ => false)
      ⟨[⟨none, ['A'], [], ['B']⟩], none, none, none⟩ =
      SubmitOutcome.blocked ["Roll number is required"] ∧
    "At least one student must be selected with complete details." ∉
      (["Roll number is required"] : List String) := by
  constructor
  · rfl
  · decide

/-- C5: in a submission with a complete student and a student whose roll
number is empty, the filter step drops the incomplete student and the
payload of the issued `addSelection` call carries exactly the complete
one. -/
theorem c5_incomplete_student_dropped (s1 s2 : StudentInput)
    (ns dl an : Option JStr)
    (h1 : studentComplete s1 = true) (h2 : s2.rollno = []) :
    handleAddSubmit ⟨[s1, s2], ns, dl, an⟩ =
      SubmitOutcome.sent
        { selectedStudents := [projectStudent s1]
          nextSteps := linesOrEmpty ns
          documentLink := orUndefined dl
          additionalNotes := linesOrEmpty an } := by
  have hs2 : studentComplete s2 = false := by
    simp [studentComplete, h2]
  have hfilter : List.filter studentComplete [s1, s2] = [s1] := by
    simp [List.filter_cons, h1, hs2]
  have hproc : processStudentData [s1, s2] = .ok [projectStudent s1] := by
    unfold processStudentData
    rw [hfilter]
    rfl
  show (match processStudentData [s1, s2] with
    | .error _ =>
      SubmitOutcome.blocked
        ["Please ensure all selected students have a name, roll number, and branch."]
    | .ok processedStudents =>
      if processedStudents.isEmpty && !optStrTruthy ns &&
          !optStrTruthy dl && !optStrTruthy an then
        SubmitOutcome.noop
          "Cannot add an empty selection list. Please add students or other details."
      else
        SubmitOutcome.sent { selectedStudents := processedStudents
                             nextSteps := linesOrEmpty ns
                             documentLink := orUndefined dl
                             additionalNotes := linesOrEmpty an }) = _
  rw [hproc]
  rfl

/-- Witness for C5 at two concrete students. -/
theorem c5_incomplete_student_dropped_witness :
    handleAddSubmit ⟨[⟨none, ['A'], ['1'], ['B']⟩, ⟨none, ['C'], [], ['D']⟩],
        none, none, none⟩ =
      SubmitOutcome.sent
        { selectedStudents := [projectStudent ⟨none, ['A'], ['1'], ['B']⟩]
          nextSteps := linesOrEmpty none
          documentLink := orUndefined none
          additionalNotes := linesOrEmpty none } :=
  c5_incomplete_student_dropped ⟨none, ['A'], ['1'], ['B']⟩ ⟨none, ['C'], [], ['D']⟩
    none none none rfl rfl

/-- C6: each optional URL field (company website, registration link,
selection document link) accepts an absent value and the empty string —
its check contributes no error — and rejects every non-empty string that
the URL predicate refuses. -/
theorem c6_optional_url_fields (isURL : JStr → Bool) (c : Company)
    (d : AddPlacementFormData) (f : SelectionFormValues) (s : JStr) :
    (c.website = some s → s ≠ [] → isURL s = false →
      "Invalid company website URL" ∈ companySchemaErrors isURL c) ∧
    (d.registrationLink = some s → s ≠ [] → isURL s = false →
      "Invalid registration link URL" ∈ addPlacementSchemaErrors isURL d) ∧
    (f.documentLink = some s → s ≠ [] → isURL s = false →
      "Must be a valid URL" ∈ selectionSchemaErrors isURL f) ∧
    (c.website = none ∨ c.website = some [] →
      "Invalid company website URL" ∉ companySchemaErrors isURL c) ∧
    (d.registrationLink = none ∨ d.registrationLink = some [] →
      "Invalid registration link URL" ∉ addPlacementSchemaErrors isURL d) ∧
    (f.documentLink = none ∨ f.documentLink = some [] →
      "Must be a valid URL" ∉ selectionSchemaErrors isURL f) := by
  refine ⟨?_, ?_, ?_, ?_, ?_, ?_⟩
  · intro hw hne hurl
    unfold companySchemaErrors
    rw [hw, urlErrors_eq hne hurl]
    exact List.mem_append.mpr (.inr (List.mem_cons_self _ _))
  · intro hw hne hurl
    unfold addPlacementSchemaErrors
    rw [hw, urlErrors_eq hne hurl]
    exact List.mem_append.mpr (.inr (List.mem_cons_self _ _))
  · intro hw hne hurl
    unfold selectionSchemaErrors
    rw [hw, urlErrors_eq hne hurl]
    exact List.mem_append.mpr (.inr (List.mem_cons_self _ _))
  · intro h hmem
    rcases mem_companySchemaErrors_cases hmem with h1 | h1
    · exact absurd h1 (by decide)
    · rcases h with h | h <;> rw [h] at h1 <;> simp [optionalUrlFieldErrors] at h1
  · intro h hmem
    rcases mem_addPlacementSchemaErrors_cases hmem with h1 | h1 | h1 | h1 | h1 | h1 | h1
    · exact absurd h1 (by decide)
    · exact absurd h1 (by decide)
    · exact absurd h1 (by decide)
    · exact absurd h1 (by decide)
    · exact absurd h1 (by decide)
    · exact absurd h1 (by decide)
    · rcases h with h | h <;> rw [h] at h1 <;> simp [optionalUrlFieldErrors] at h1
  · intro h hmem
    rcases mem_selectionSchemaErrors_cases hmem with h1 | h1 | h1 | h1 | h1
    · exact absurd h1 (by decide)
    · exact absurd h1 (by decide)
    · exact absurd h1 (by decide)
    · exact absurd h1 (by decide)
    · rcases h with h | h <;> rw [h] at h1 <;> simp [optionalUrlFieldErrors] at h1

/-- Witness for C6 at concrete inputs: a rejected non-URL in each schema
and an accepted absent document link. -/
theorem c6_optional_url_fields_witness :
    "Invalid company website URL" ∈
      companySchemaErrors (fun _ => false) ⟨['A'], none, some ['x']⟩ ∧
    "Invalid registration link URL" ∈
      addPlacementSchemaErrors (fun _ => false)
        ⟨['T'], ⟨['A'], none, some ['x']⟩, ['J'], ['C'], ['M'], none, none, none,
          none, none, none, some ['x'], PlacementStatus.upcoming⟩ ∧
    "Must be a valid URL" ∉
      selectionSchemaErrors (fun _ => false) ⟨[], none, none, none⟩ := by
  have h := c6_optional_url_fields (fun _ => false) ⟨['A'], none, some ['x']⟩
    ⟨['T'], ⟨['A'], none, some ['x']⟩, ['J'], ['C'], ['M'], none, none, none,
      none, none, none, some ['x'], PlacementStatus.upcoming⟩
    ⟨[], none, none, none⟩ ['x']
  exact ⟨h.1 rfl (by decide) rfl, h.2.1 rfl (by decide) rfl,
    h.2.2.2.2.2 (Or.inl rfl)⟩

/-- C7: the displayed update list is the exact reversal of the stored
list — same length, entry `i` of the stored order appears at mirrored
position `length - 1 - i`, each update unchanged. -/
theorem c7_updates_displayed_newest_first (updates : List PlacementUpdate) :
    displayedUpdates updates = updates.reverse ∧
    (displayedUpdates updates).length = updates.length ∧
    ∀ i (h : i < updates.length),
      (displayedUpdates updates).get
        ⟨updates.length - 1 - i, by
          simp only [displayedUpdates, jsSliceCopy, List.length_reverse]
          omega⟩ = updates.get ⟨i, h⟩ := by
  refine ⟨rfl, by simp [displayedUpdates, jsSliceCopy], ?_⟩
  intro i h
  exact List.get_reverse updates i _ h

/-- Witness for C7 at a concrete two-update list. -/
theorem c7_updates_displayed_newest_first_witness :
    displayedUpdates [⟨['1'], UpdateType.info, ['m'], ['t']⟩,
        ⟨['2'], UpdateType.alert, ['n'], ['u']⟩] =
      [⟨['2'], UpdateType.alert, ['n'], ['u']⟩,
        ⟨['1'], UpdateType.info, ['m'], ['t']⟩] ∧
    (displayedUpdates [⟨['1'], UpdateType.info, ['m'], ['t']⟩,
        ⟨['2'], UpdateType.alert, ['n'], ['u']⟩]).get ⟨1, by decide⟩ =
      ⟨['1'], UpdateType.info, ['m'], ['t']⟩ :=
  ⟨(c7_updates_displayed_newest_first [⟨['1'], UpdateType.info, ['m'], ['t']⟩,
      ⟨['2'], UpdateType.alert, ['n'], ['u']⟩]).1,
    (c7_updates_displayed_newest_first [⟨['1'], UpdateType.info, ['m'], ['t']⟩,
      ⟨['2'], UpdateType.alert, ['n'], ['u']⟩]).2.2 0 (by decide)⟩

/-- C8: starting with a persisted token, the mount effect resolves the
user on `getMe` success and, on failure, discards the stored and in-memory
token and user (Unauthenticated) without propagating; the loading flag is
cleared in both cases. -/
theorem c8_session_restore (persisted : Option JStr) (t : JStr)
    (r : Except String Json) (h : persisted = some t) :
    (loadUser (initialAuthState persisted) r).isLoading = false ∧
    (∀ u, r = .ok u →
      (loadUser (initialAuthState persisted) r).user = some u ∧
      (loadUser (initialAuthState persisted) r).token = some t ∧
      (loadUser (initialAuthState persisted) r).storedToken = some t) ∧
    (∀ e, r = .error e →
      (loadUser (initialAuthState persisted) r).user = none ∧
      (loadUser (initialAuthState persisted) r).token = none ∧
      (loadUser (initialAuthState persisted) r).storedToken = none) := by
  subst h
  refine ⟨?_, ?_, ?_⟩
  · cases r with
    | ok u => rfl
    | error e => rfl
  · intro u hr
    subst hr
    exact ⟨rfl, rfl, rfl⟩
  · intro e hr
    subst hr
    exact ⟨rfl, rfl, rfl⟩

/-- Witness for C8 at a concrete token and a failing `getMe`. -/
theorem c8_session_restore_witness :
    (loadUser (initialAuthState (some ['k'])) (.error "boom")).isLoading = false ∧
    (loadUser (initialAuthState (some ['k'])) (.error "boom")).token = none ∧
    (loadUser (initialAuthState (some ['k'])) (.error "boom")).storedToken = none := by
  have h := c8_session_restore (some ['k']) ['k'] (.error "boom") rfl
  exact ⟨h.1, (h.2.2 "boom" rfl).2.1, (h.2.2 "boom" rfl).2.2⟩
